import Mathlib

/-!
Verification of the checkout worker of the Week1-Ecom repository
(`src/realtime_worker.js`, checkout section): shallow embedding of the
shipping-rate computation, cart mutation, and place-order commit, with
theorems about the properties the specification states.

Conventions of the embedding:
* JavaScript numbers that hold cent amounts and quantities are modelled as
  `Nat`/`Int` with exact arithmetic.  `Math.floor(subtotal * 0.1)` is
  modelled as `subtotal / 10` and `Math.ceil(cost * 1.6)` as
  `(8 * cost + 4) / 5`, the exact values of these expressions on the
  integer ranges the worker handles.
* `String.prototype.toLowerCase` / `toUpperCase` are modelled for the
  ASCII range, which covers every string the worker compares.
* D1 result rows become Lean structures; `SELECT ... first()` becomes
  `List.find?`; fallible handlers return `Except`.
-/

/-- ASCII lowering of one character, as `toLowerCase` acts on ASCII. -/
def jsLowerChar (c : Char) : Char :=
  if 'A' ≤ c ∧ c ≤ 'Z' then Char.ofNat (c.toNat + 32) else c

/-- ASCII raising of one character, as `toUpperCase` acts on ASCII. -/
def jsUpperChar (c : Char) : Char :=
  if 'a' ≤ c ∧ c ≤ 'z' then Char.ofNat (c.toNat - 32) else c

/-- Models `s.toLowerCase()` on ASCII strings. -/
def jsToLower (s : String) : String := String.mk (s.data.map jsLowerChar)

/-- Models `s.toUpperCase()` on ASCII strings. -/
def jsToUpper (s : String) : String := String.mk (s.data.map jsUpperChar)

/-- A row of the `shipping_methods` table, as read by the worker
(`SELECT id, name, zone, speed, base_cents, per_kg_cents, free_over_cents,
active`); the informational `name`/`per_kg_cents` columns are not used by
any computation and are omitted. -/
structure ShippingMethod where
  id : String
  zone : String
  speed : String
  base_cents : Nat
  free_over_cents : Option Nat
  active : Bool
deriving DecidableEq, Repr

/-- One entry of the `shipping_options` array built by
`GET /api/checkout/summary` (the informational `name`/`zone` fields are
omitted). -/
structure RateQuote where
  id : String
  speed : String
  cost_cents : Nat
deriving DecidableEq, Repr

/-- `Math.floor(subtotal_cents * 0.1)` — the 10%-of-subtotal shipping cap. -/
def capOf (subtotal : Nat) : Nat := subtotal / 10

/-- `Math.ceil(cost * 1.6) + 200` — the express tie-break surcharge. -/
def surchargeOf (cost : Nat) : Nat := (8 * cost + 4) / 5 + 200

/-- The cost of a method after the free-over threshold:
`cost = base_cents`, set to `0` when `free_over_cents` is non-null and
`subtotal_cents >= free_over_cents`. -/
def freeAdjusted (subtotal : Nat) (m : ShippingMethod) : Nat :=
  match m.free_over_cents with
  | some f => if f ≤ subtotal then 0 else m.base_cents
  | none => m.base_cents

/-- The per-method cost computed inside `summary()`'s map over methods:
free-over threshold, then `cost = min(cost, cap)` when `cost > 0 && cap > 0`. -/
def baseQuote (subtotal : Nat) (m : ShippingMethod) : Nat :=
  let cost := freeAdjusted subtotal m
  if 0 < cost ∧ 0 < capOf subtotal then min cost (capOf subtotal) else cost

/-- The shipping option object `summary()` builds for one method. -/
def quoteOf (subtotal : Nat) (m : ShippingMethod) : RateQuote :=
  ⟨m.id, m.speed, baseQuote subtotal m⟩

/-- `(q.speed || '').toLowerCase() === t` — the speed test used by both
call sites. -/
def isSpeed (t : String) (q : RateQuote) : Bool := jsToLower q.speed == t

/-- Replaces the cost of the first element satisfying `p` — the effect of
the in-place mutation `express.cost_cents = ...` on the element returned
by `Array.prototype.find`. -/
def replaceFirstCost (p : RateQuote → Bool) : List RateQuote → Nat → List RateQuote
  | [], _ => []
  | q :: rest, c =>
    if p q then { q with cost_cents := c } :: rest
    else q :: replaceFirstCost p rest c

/-- The tie-break block of `summary()`: when at least two options exist and
the first standard-speed and first express-speed options have equal cost,
the express option's cost is replaced by `ceil(cost * 1.6) + 200` unless it
is zero. -/
def applyTieBreak (opts : List RateQuote) : List RateQuote :=
  if 2 ≤ opts.length then
    match opts.find? (isSpeed "standard"), opts.find? (isSpeed "express") with
    | some st, some ex =>
      if st.cost_cents = ex.cost_cents ∧ 0 < ex.cost_cents then
        replaceFirstCost (isSpeed "express") opts (surchargeOf ex.cost_cents)
      else opts
    | _, _ => opts
  else opts

/-- The `shipping_options` array before the tie-break block: one quote per
(already zone-filtered, active) shipping method. -/
def summaryPreOptions (ms : List ShippingMethod) (subtotal : Nat) : List RateQuote :=
  ms.map (quoteOf subtotal)

/-- The final `shipping_options` array returned by
`GET /api/checkout/summary`. -/
def summaryShippingOptions (ms : List ShippingMethod) (subtotal : Nat) : List RateQuote :=
  applyTieBreak (summaryPreOptions ms subtotal)

/-- The `shipping_cents` value of `POST /api/checkout/place-order` before
its final cap line: free-over threshold on the chosen method, then the
peer-method express surcharge probe (load the zone's active methods, take
the first standard-speed one, price it with free-over and cap, and apply
`ceil(cost * 1.6) + 200` when it ties the current value).  `methods` is the
`shipping_methods` table, `m` the method loaded for the request, `zone` the
address zone already validated to equal `m.zone`. -/
def placeOrderShippingPre (methods : List ShippingMethod) (m : ShippingMethod)
    (zone : String) (subtotal : Nat) : Nat :=
  let s0 := freeAdjusted subtotal m
  if jsToLower m.speed = "express" ∧ 0 < s0 then
    match (methods.filter (fun r => r.active && r.zone == zone)).find?
        (fun r => jsToLower r.speed == "standard") with
    | some peer =>
      let pc0 := freeAdjusted subtotal peer
      let pc :=
        if 0 < pc0 ∧ 0 < capOf subtotal then min pc0 (capOf subtotal) else pc0
      if pc = s0 ∧ 0 < s0 then surchargeOf s0 else s0
    | none => s0
  else s0

/-- The full `shipping_cents` computation of
`POST /api/checkout/place-order` (step 5 of the handler): the pre-cap
value, then `shipping_cents = min(shipping_cents, cap)` when positive and
the cap is positive. -/
def placeOrderShipping (methods : List ShippingMethod) (m : ShippingMethod)
    (zone : String) (subtotal : Nat) : Nat :=
  let s1 := placeOrderShippingPre methods m zone subtotal
  if 0 < s1 ∧ 0 < capOf subtotal then min s1 (capOf subtotal) else s1

/-! ## Cart Manager (`POST /api/cart/items`) -/

/-- The three cart operations accepted by the unified cart-update schema. -/
inductive CartOp
  | set
  | add
  | remove
deriving DecidableEq, Repr

/-- The validated body of `POST /api/cart/items`.  Joi restricts `qty` to
an integer in `1..999`; the handler itself re-checks nothing, so the bound
is enforced by `updateCart`'s validation guard. -/
structure CartReq where
  product_id : String
  qty : Int
  op : CartOp
deriving DecidableEq, Repr

/-- The product row loaded by the cart handler
(`SELECT id, seller_id, status FROM products WHERE id = ?`). -/
structure ProductRow where
  id : String
  seller_id : Option String
  status : String
deriving DecidableEq, Repr

/-- The database context a single cart update reads: the product lookup
result and the inventory row (`stock`/`reserved` collapse to `0` when the
row or column is missing, as `Number(inv.stock || 0)` does). -/
structure CartEnv where
  product : Option ProductRow
  stock : Int
  reserved : Int
deriving DecidableEq, Repr

/-- One `cart_items` row of the current user: `(product_id, qty)`. -/
abbrev CartLine := String × Int

/-- The current user's `cart_items` rows. -/
abbrev Cart := List CartLine

/-- The errors `POST /api/cart/items` can answer with. -/
inductive CartErr
  | badRequest
  | notAvailable
  | ownProduct
  | itemNotFound
  | removeTooMany (current : Int)
  | outOfStock
  | exceedsAvailable (available : Int)
deriving DecidableEq, Repr

/-- `existing ? Number(existing.qty || 0) : 0` — the stored quantity of a
line, `0` when absent. -/
def currentQtyOf (cart : Cart) (pid : String) : Int :=
  (Option.map Prod.snd (cart.find? (fun r => r.1 == pid))).getD 0

/-- Whether the user's cart holds a line for `pid`. -/
def hasLine (cart : Cart) (pid : String) : Bool :=
  (cart.find? (fun r => r.1 == pid)).isSome

/-- The `INSERT ... ON CONFLICT(user_id, product_id) DO UPDATE SET qty`
upsert on the user's cart. -/
def upsertLine (cart : Cart) (pid : String) (q : Int) : Cart :=
  if hasLine cart pid then
    cart.map (fun r => if r.1 == pid then (pid, q) else r)
  else cart ++ [(pid, q)]

/-- `DELETE FROM cart_items WHERE user_id = ? AND product_id = ?`. -/
def deleteLine (cart : Cart) (pid : String) : Cart :=
  cart.filter (fun r => r.1 != pid)

/-- `product.seller_id && product.seller_id === auth.user.id` — the
own-product guard (an empty seller id is falsy). -/
def sellerBlocked (p : ProductRow) (uid : String) : Bool :=
  match p.seller_id with
  | some s => s != "" && s == uid
  | none => false

/-- The new quantity requested by an operation, before any check:
`set → qty`, `add → current + qty`, `remove → current - qty`. -/
def requestedQty (cart : Cart) (req : CartReq) : Int :=
  match req.op with
  | .set => req.qty
  | .add => currentQtyOf cart req.product_id + req.qty
  | .remove => currentQtyOf cart req.product_id - req.qty

/-- Step 4 of the handler: compute `newQty`, rejecting a `remove` on an
absent line and a `remove` of more than is in the cart. -/
def newQtyOf (cart : Cart) (req : CartReq) : Except CartErr Int :=
  match req.op with
  | .set => .ok (requestedQty cart req)
  | .add => .ok (requestedQty cart req)
  | .remove =>
    if ¬ hasLine cart req.product_id then .error .itemNotFound
    else if currentQtyOf cart req.product_id < req.qty then
      .error (.removeTooMany (currentQtyOf cart req.product_id))
    else .ok (requestedQty cart req)

/-- Steps 6–7 of the handler: delete the line when `newQty <= 0` and
report `qty: 0`, otherwise upsert `newQty` and report it. -/
def commitLine (cart : Cart) (pid : String) (newQty : Int) :
    Except CartErr Int × Cart :=
  if newQty ≤ 0 then (.ok 0, deleteLine cart pid)
  else (.ok newQty, upsertLine cart pid newQty)

/-- The full `POST /api/cart/items` handler on the user's cart: Joi
validation, product/ownership guards, quantity computation, the
availability checks for increasing operations, then delete/upsert.  The
second component is the resulting cart (unchanged on error). -/
def updateCart (env : CartEnv) (uid : String) (cart : Cart) (req : CartReq) :
    Except CartErr Int × Cart :=
  if req.qty < 1 ∨ 999 < req.qty then (.error .badRequest, cart) else
  match env.product with
  | none => (.error .notAvailable, cart)
  | some p =>
    if p.status ≠ "active" then (.error .notAvailable, cart)
    else if sellerBlocked p uid then (.error .ownProduct, cart)
    else
      let available := env.stock - env.reserved
      match newQtyOf cart req with
      | .error e => (.error e, cart)
      | .ok newQty =>
        if (req.op = .set ∨ req.op = .add) ∧
            currentQtyOf cart req.product_id < newQty then
          if available ≤ 0 then (.error .outOfStock, cart)
          else if available < newQty then
            (.error (.exceedsAvailable available), cart)
          else commitLine cart req.product_id newQty
        else commitLine cart req.product_id newQty

/-- The cart state after one request (kept unchanged when the request is
rejected). -/
def stepCart (uid : String) (cart : Cart) (er : CartEnv × CartReq) : Cart :=
  (updateCart er.1 uid cart er.2).2

/-- The cart state after a sequence of requests. -/
def runCart (uid : String) (cart : Cart) (ops : List (CartEnv × CartReq)) : Cart :=
  ops.foldl (stepCart uid) cart

/-- The invariant on stored cart rows: every present line has quantity ≥ 1. -/
def CartInv (cart : Cart) : Prop := ∀ r ∈ cart, 1 ≤ r.2

/-! ## Checkout Orchestrator (`GET /api/checkout/summary`,
`POST /api/checkout/place-order`) -/

/-- A joined row of the checkout read
(`cart_items JOIN products LEFT JOIN inventory`): quantity, the product's
title and price, and the inventory columns (`NULL` collapsing to `0` as
`Number(x || 0)` does). -/
structure CartRow where
  product_id : String
  qty : Nat
  title : String
  price_cents : Nat
  stock : Int
  reserved : Int
deriving DecidableEq, Repr

/-- An `addresses` row as the checkout handlers read it
(`SELECT id, country ...`); only the columns checkout uses are kept. -/
structure Address where
  id : String
  country : Option String
  is_default_shipping : Bool
deriving DecidableEq, Repr

/-- The validated body of `POST /api/checkout/place-order`
(`checkoutPlaceSchema`). -/
structure PlaceInput where
  shipping_method_id : String
  shipping_address_id : String
  billing_address_id : Option String
deriving DecidableEq, Repr

/-- The errors `POST /api/checkout/place-order` can answer with.
`storage` stands for a thrown storage error caught by the surrounding
`try`/`catch` (a 500 response). -/
inductive PlaceErr
  | badRequest
  | emptyCart
  | insufficientStock (product_id : String) (available : Int)
  | addressNotFound
  | invalidMethod
  | zoneMismatch (methodZone : String) (addrZone : String)
  | storage
deriving DecidableEq, Repr

/-- The `orders` row the handler inserts (timestamps omitted). -/
structure OrderRow where
  id : String
  user_id : String
  status : String
  subtotal_cents : Nat
  shipping_cents : Nat
  tax_cents : Nat
  total_cents : Nat
  currency : String
  shipping_address_id : String
  billing_address_id : String
  shipping_method_id : String
deriving DecidableEq, Repr

/-- An `order_items` row (the random row id is omitted). -/
structure OrderItemRow where
  order_id : String
  product_id : String
  title_snapshot : String
  price_cents : Nat
  qty : Nat
deriving DecidableEq, Repr

/-- `(shippingAddress.country || 'IN').toUpperCase()` — the zone of an
address (`null` or the empty string fall back to `'IN'`). -/
def zoneOf (country : Option String) : String :=
  jsToUpper (match country with
    | none => "IN"
    | some c => if c = "" then "IN" else c)

/-- The running-sum subtotal loop of both checkout handlers:
`subtotal_cents += price * qty` over the cart rows. -/
def subtotalOf (items : List CartRow) : Nat :=
  items.foldl (fun s it => s + it.price_cents * it.qty) 0

/-- The first cart row failing the availability check of place-order step
2: `qty > stock - reserved`. -/
def firstShort (items : List CartRow) : Option CartRow :=
  items.find? (fun it => it.stock - it.reserved < (it.qty : Int))

/-- The tables a checkout request reads besides the user's cart:
`addresses` rows tagged with their `user_id`, and `shipping_methods`. -/
structure CheckoutTables where
  addresses : List (String × Address)
  methods : List ShippingMethod
deriving Repr

/-- `SELECT id, country FROM addresses WHERE id = ? AND user_id = ?`. -/
def lookupAddress (tbl : CheckoutTables) (uid aid : String) : Option Address :=
  Option.map Prod.snd
    (tbl.addresses.find? (fun r => r.2.id == aid && r.1 == uid))

/-- `SELECT ... FROM shipping_methods WHERE id = ? AND active = 1`. -/
def lookupMethod (tbl : CheckoutTables) (mid : String) : Option ShippingMethod :=
  tbl.methods.find? (fun m => m.id == mid && m.active)

/-- Joi validation of the place-order body: the two required ids must be
non-empty strings, and `billing_address_id`, when present, must be a
non-empty string. -/
def placeInputValid (inp : PlaceInput) : Bool :=
  inp.shipping_method_id != "" && inp.shipping_address_id != "" &&
    (match inp.billing_address_id with
     | some b => b != ""
     | none => true)

/-- The pure part of `POST /api/checkout/place-order` (steps up to the
commit): validation, cart/stock checks, address and method resolution,
shipping computation, and the order row and item rows to be written. -/
def placeOrderCompute (items : List CartRow) (tbl : CheckoutTables)
    (uid : String) (inp : PlaceInput) (oid : String) :
    Except PlaceErr (OrderRow × List OrderItemRow) :=
  if ¬ placeInputValid inp then .error .badRequest else
  if items = [] then .error .emptyCart else
  match firstShort items with
  | some it => .error (.insufficientStock it.product_id (it.stock - it.reserved))
  | none =>
    let subtotal := subtotalOf items
    match lookupAddress tbl uid inp.shipping_address_id with
    | none => .error .addressNotFound
    | some addr =>
      let zone := zoneOf addr.country
      match lookupMethod tbl inp.shipping_method_id with
      | none => .error .invalidMethod
      | some m =>
        if m.zone ≠ zone then .error (.zoneMismatch m.zone zone) else
        let shipping := placeOrderShipping tbl.methods m zone subtotal
        let tax := 0
        let total := subtotal + shipping
        let billing :=
          match inp.billing_address_id with
          | some b => b
          | none => addr.id
        let order : OrderRow :=
          ⟨oid, uid, "placed", subtotal, shipping, tax, total, "USD",
            addr.id, billing, m.id⟩
        let oitems := items.map
          (fun it => ⟨oid, it.product_id, it.title, it.price_cents, it.qty⟩)
        .ok (order, oitems)

/-- The backing store touched by a place-order commit: this user's cart
rows, the inventory stock levels, and the orders / order-items tables. -/
structure DBState where
  cart : List CartRow
  inventory : List (String × Int)
  orders : List OrderRow
  orderItems : List OrderItemRow
deriving DecidableEq, Repr

/-- One SQL write of the commit phase (steps 6–8 of the handler). -/
inductive CommitWrite
  | insertOrder (o : OrderRow)
  | insertItem (it : OrderItemRow)
  | decStock (pid : String) (qty : Nat)
  | clearCart
deriving DecidableEq, Repr

/-- The effect of one commit write on the store. -/
def applyWrite (st : DBState) : CommitWrite → DBState
  | .insertOrder o => { st with orders := st.orders ++ [o] }
  | .insertItem it => { st with orderItems := st.orderItems ++ [it] }
  | .decStock pid q =>
    { st with inventory :=
        st.inventory.map (fun r => if r.1 == pid then (r.1, r.2 - (q : Int)) else r) }
  | .clearCart => { st with cart := [] }

/-- The write sequence the handler issues: the order insert, then per cart
row an order-item insert followed by the stock decrement, then the cart
clear — independent sequential statements, no transaction. -/
def commitWrites (o : OrderRow) (its : List OrderItemRow)
    (items : List CartRow) : List CommitWrite :=
  .insertOrder o ::
    (List.zip its items).flatMap
      (fun p => [.insertItem p.1, .decStock p.2.product_id p.2.qty]) ++
    [.clearCart]

/-- The full place-order handler over the store.  `failAt = some k` models
the `k`-th commit write throwing a storage error: the writes before it
persist, the rest are never issued, and the handler answers 500. -/
def placeOrderExec (st : DBState) (tbl : CheckoutTables) (uid : String)
    (inp : PlaceInput) (oid : String) (failAt : Option Nat) :
    Except PlaceErr OrderRow × DBState :=
  match placeOrderCompute st.cart tbl uid inp oid with
  | .error e => (.error e, st)
  | .ok (o, its) =>
    let ws := commitWrites o its st.cart
    match failAt with
    | some k =>
      if k < ws.length then (.error .storage, (ws.take k).foldl applyWrite st)
      else (.ok o, ws.foldl applyWrite st)
    | none => (.ok o, ws.foldl applyWrite st)

/-- The errors `GET /api/checkout/summary` can answer with. -/
inductive SummaryErr
  | emptyCart
  | noAddresses
  | noShippingMethods (zone : String)
deriving DecidableEq, Repr

/-- The data `GET /api/checkout/summary` returns (the decrypted address
list is omitted; it plays no part in any claim). -/
structure SummaryOut where
  subtotal_cents : Nat
  selected_shipping_address_id : String
  shipping_options : List RateQuote
deriving DecidableEq, Repr

/-- `GET /api/checkout/summary`: cart read, subtotal, address selection
(default-shipping flag first, else the first row), zone, active methods of
the zone, quotes, tie-break.  Read-only — it performs no write. -/
def summaryCompute (items : List CartRow) (addrs : List Address)
    (methods : List ShippingMethod) : Except SummaryErr SummaryOut :=
  if items = [] then .error .emptyCart else
  let subtotal := subtotalOf items
  match addrs with
  | [] => .error .noAddresses
  | a0 :: _ =>
    let shipAddr := (addrs.find? (fun a => a.is_default_shipping)).getD a0
    let zone := zoneOf shipAddr.country
    let zoneMethods := methods.filter (fun m => m.active && m.zone == zone)
    let opts := summaryPreOptions zoneMethods subtotal
    if opts = [] then .error (.noShippingMethods zone)
    else .ok ⟨subtotal, shipAddr.id, applyTieBreak opts⟩

/-! ## Helper lemmas -/

theorem subtotalOf_eq_sum (items : List CartRow) :
    subtotalOf items = (items.map (fun it => it.price_cents * it.qty)).sum := by
  have h : ∀ (l : List CartRow) (a : Nat),
      l.foldl (fun s it => s + it.price_cents * it.qty) a =
        a + (l.map (fun it => it.price_cents * it.qty)).sum := by
    intro l
    induction l with
    | nil => intro a; simp
    | cons x xs ih => intro a; simp [ih]; ring
  simpa [subtotalOf] using h items 0

theorem isSpeed_replace (t : String) (q : RateQuote) (c : Nat) :
    isSpeed t { q with cost_cents := c } = isSpeed t q := rfl

theorem find?_replaceFirstCost (p : RateQuote → Bool)
    (hp : ∀ q c, p { q with cost_cents := c } = p q) :
    ∀ (l : List RateQuote) (c : Nat) (ex : RateQuote),
      l.find? p = some ex →
      (replaceFirstCost p l c).find? p = some { ex with cost_cents := c }
  | [], c, ex, h => by simp [List.find?] at h
  | q :: rest, c, ex, h => by
    by_cases hq : p q
    · rw [List.find?_cons_of_pos _ hq] at h
      cases h
      rw [replaceFirstCost, if_pos hq]
      rw [List.find?_cons_of_pos]
      rw [hp]; exact hq
    · rw [List.find?_cons_of_neg _ hq] at h
      rw [replaceFirstCost, if_neg hq]
      rw [List.find?_cons_of_neg _ hq]
      exact find?_replaceFirstCost p hp rest c ex h

theorem getElem?_replaceFirstCost (p : RateQuote → Bool) :
    ∀ (l : List RateQuote) (c : Nat) (i : Nat) (q ex : RateQuote),
      l.find? p = some ex → l[i]? = some q →
      ex.cost_cents ≠ q.cost_cents →
      (replaceFirstCost p l c)[i]? = some q
  | [], _, _, _, _, hf, _, _ => by simp [List.find?] at hf
  | a :: rest, c, i, q, ex, hf, hget, hne => by
    by_cases ha : p a
    · rw [List.find?_cons_of_pos _ ha] at hf
      cases hf
      rw [replaceFirstCost, if_pos ha]
      match i, hget with
      | 0, hget => simp at hget; cases hget; exact absurd rfl hne
      | Nat.succ n, hget => simpa using hget
    · rw [List.find?_cons_of_neg _ ha] at hf
      rw [replaceFirstCost, if_neg ha]
      match i, hget with
      | 0, hget => simpa using hget
      | Nat.succ n, hget =>
        simp only [List.getElem?_cons_succ] at hget ⊢
        exact getElem?_replaceFirstCost p rest c n q ex hf hget hne

theorem applyTieBreak_getElem?_zero (opts : List RateQuote) (i : Nat) (q : RateQuote)
    (hget : opts[i]? = some q) (hzero : q.cost_cents = 0) :
    (applyTieBreak opts)[i]? = some q := by
  unfold applyTieBreak
  split
  · split
    · next st ex hst hex =>
      split
      · next hcond =>
        refine getElem?_replaceFirstCost _ opts _ i q ex hex hget ?_
        omega
      · exact hget
    · exact hget
  · exact hget

theorem two_le_length_of_two_find? (l : List RateQuote) (p q : RateQuote → Bool)
    (a b : RateQuote) (ha : l.find? p = some a) (hb : l.find? q = some b)
    (hpq : ∀ x, ¬(p x = true ∧ q x = true)) : 2 ≤ l.length := by
  match l with
  | [] => simp at ha
  | [x] =>
    by_cases hx : p x
    · rw [List.find?_cons_of_pos _ hx] at ha
      by_cases hx2 : q x
      · exact absurd ⟨hx, hx2⟩ (hpq x)
      · rw [List.find?_cons_of_neg _ hx2] at hb
        simp at hb
    · rw [List.find?_cons_of_neg _ hx] at ha
      simp at ha
  | _ :: _ :: _ => simp [List.length]

theorem speeds_disjoint (x : RateQuote) :
    ¬(isSpeed "standard" x = true ∧ isSpeed "express" x = true) := by
  intro h
  obtain ⟨h1, h2⟩ := h
  simp [isSpeed] at h1 h2
  rw [h1] at h2
  exact absurd h2 (by decide)

/-! ## Claims -/

/-- C3 (amended): for every shipping method and subtotal with a positive
cap `floor(subtotal_cents * 0.10)`, a positive per-method cost computed by
`summary()` before the tie-break step never exceeds the cap, and the final
`shipping_cents` charged by `placeOrder()` never exceeds the cap; the
express quote after `summary()`'s tie-break recomputation is exempt (see
the counterexample). -/
theorem c3_shipping_cap_bound (subtotal : Nat) (m : ShippingMethod)
    (db : List ShippingMethod) (zone : String) (hcap : 0 < capOf subtotal) :
    (0 < baseQuote subtotal m → baseQuote subtotal m ≤ capOf subtotal)
    ∧ (0 < placeOrderShipping db m zone subtotal →
        placeOrderShipping db m zone subtotal ≤ capOf subtotal) := by
  constructor
  · intro hpos
    by_cases hc : 0 < freeAdjusted subtotal m
    · simp only [baseQuote]
      rw [if_pos (And.intro hc hcap)]
      exact min_le_right _ _
    · have h0 : freeAdjusted subtotal m = 0 := by omega
      simp only [baseQuote, h0] at hpos
      simp at hpos
  · intro hpos
    simp only [placeOrderShipping] at hpos ⊢
    by_cases h1 : 0 < placeOrderShippingPre db m zone subtotal
    · rw [if_pos (And.intro h1 hcap)]
      exact min_le_right _ _
    · have h0 : placeOrderShippingPre db m zone subtotal = 0 := by omega
      rw [h0] at hpos
      simp at hpos

/-- Witness for C3's amended bound at the spec's worked scenario
(subtotal 1500, base 5000, free-over 200000 not reached). -/
theorem c3_shipping_cap_bound_witness :
    (0 < baseQuote 1500 ⟨"s", "IN", "standard", 5000, some 200000, true⟩ →
      baseQuote 1500 ⟨"s", "IN", "standard", 5000, some 200000, true⟩ ≤ capOf 1500)
    ∧ (0 < placeOrderShipping [⟨"s", "IN", "standard", 5000, some 200000, true⟩]
          ⟨"s", "IN", "standard", 5000, some 200000, true⟩ "IN" 1500 →
        placeOrderShipping [⟨"s", "IN", "standard", 5000, some 200000, true⟩]
          ⟨"s", "IN", "standard", 5000, some 200000, true⟩ "IN" 1500 ≤ capOf 1500) :=
  c3_shipping_cap_bound 1500 ⟨"s", "IN", "standard", 5000, some 200000, true⟩
    [⟨"s", "IN", "standard", 5000, some 200000, true⟩] "IN" (by decide)

/-- C3 counterexample: with standard and express both at base 150 and
subtotal 1500, `summary()`'s final express quote is 440, strictly above
the cap `floor(1500 * 0.10) = 150` — the claimed bound fails for the
express quote after the tie-break recomputation. -/
theorem c3_cap_counterexample :
    (summaryShippingOptions
        [⟨"s", "IN", "standard", 150, none, true⟩,
         ⟨"e", "IN", "express", 150, none, true⟩] 1500)[1]? =
      some ⟨"e", "express", 440⟩
    ∧ capOf 1500 = 150 ∧ ¬(440 ≤ 150) := by decide

/-- C4: in `summary()`'s quotes, when the first standard-speed and first
express-speed options tie at a non-zero cost after the free-threshold and
cap steps, the express quote is recomputed as `ceil(cost * 1.6) + 200`
(`surchargeOf`); a zero tie is left untouched; a tie at 150 yields 440. -/
theorem c4_tie_break_surcharge (ms : List ShippingMethod) (subtotal : Nat)
    (st ex : RateQuote)
    (hst : (summaryPreOptions ms subtotal).find? (isSpeed "standard") = some st)
    (hex : (summaryPreOptions ms subtotal).find? (isSpeed "express") = some ex)
    (heq : st.cost_cents = ex.cost_cents) :
    (0 < ex.cost_cents →
      (summaryShippingOptions ms subtotal).find? (isSpeed "express") =
        some { ex with cost_cents := surchargeOf ex.cost_cents })
    ∧ (ex.cost_cents = 0 →
        summaryShippingOptions ms subtotal = summaryPreOptions ms subtotal)
    ∧ (ex.cost_cents = 150 →
      (summaryShippingOptions ms subtotal).find? (isSpeed "express") =
        some { ex with cost_cents := 440 }) := by
  have hlen : 2 ≤ (summaryPreOptions ms subtotal).length :=
    two_le_length_of_two_find? _ _ _ st ex hst hex speeds_disjoint
  have main : 0 < ex.cost_cents →
      (summaryShippingOptions ms subtotal).find? (isSpeed "express") =
        some { ex with cost_cents := surchargeOf ex.cost_cents } := by
    intro hpos
    unfold summaryShippingOptions applyTieBreak
    rw [if_pos hlen]
    split
    · next st2 ex2 hst2 hex2 =>
      rw [hst] at hst2; rw [hex] at hex2
      cases hst2; cases hex2
      rw [if_pos (And.intro heq hpos)]
      exact find?_replaceFirstCost _ (isSpeed_replace "express") _ _ _ hex
    · next hcatch =>
      exact absurd (hcatch st ex hst hex) (fun h => h)
  refine ⟨main, ?_, ?_⟩
  · intro h0
    unfold summaryShippingOptions applyTieBreak
    rw [if_pos hlen]
    split
    · next st2 ex2 hst2 hex2 =>
      rw [hst] at hst2; rw [hex] at hex2
      cases hst2; cases hex2
      rw [if_neg (by omega : ¬(st.cost_cents = ex.cost_cents ∧ 0 < ex.cost_cents))]
    · next hcatch =>
      exact absurd (hcatch st ex hst hex) (fun h => h)
  · intro h150
    have h := main (by omega)
    rw [h150] at h
    simpa using h

/-- Witness for C4 at the spec's tie scenario: both methods quote 150
pre-tie-break, and the final express quote is 440. -/
theorem c4_tie_break_surcharge_witness :
    (summaryShippingOptions
        [⟨"s", "IN", "standard", 150, none, true⟩,
         ⟨"e", "IN", "express", 150, none, true⟩] 1500).find? (isSpeed "express") =
      some ⟨"e", "express", 440⟩ := by
  have h := c4_tie_break_surcharge
    [⟨"s", "IN", "standard", 150, none, true⟩,
     ⟨"e", "IN", "express", 150, none, true⟩] 1500
    ⟨"s", "standard", 150⟩ ⟨"e", "express", 150⟩ (by decide) (by decide) rfl
  exact h.2.2 rfl

/-- C5: a method whose `free_over_cents` is set and reached by the
subtotal quotes exactly 0 in `summary()`'s shipping options (the cap and
tie-break leave a zero cost untouched), and `placeOrder()` likewise
charges 0 for it. -/
theorem c5_free_over_zero (ms : List ShippingMethod) (subtotal : Nat) (i : Nat)
    (m : ShippingMethod) (f : Nat) (db : List ShippingMethod) (zone : String)
    (hm : ms[i]? = some m) (hf : m.free_over_cents = some f)
    (hle : f ≤ subtotal) :
    (summaryShippingOptions ms subtotal)[i]? = some ⟨m.id, m.speed, 0⟩
    ∧ placeOrderShipping db m zone subtotal = 0 := by
  have hq : baseQuote subtotal m = 0 := by
    simp [baseQuote, freeAdjusted, hf, hle]
  constructor
  · have hpre : (summaryPreOptions ms subtotal)[i]? = some ⟨m.id, m.speed, 0⟩ := by
      simp [summaryPreOptions, List.getElem?_map, hm, quoteOf, hq]
    exact applyTieBreak_getElem?_zero _ i _ hpre rfl
  · simp [placeOrderShipping, placeOrderShippingPre, freeAdjusted, hf, hle]

/-- Witness for C5: free shipping over 1000 with subtotal 1200 quotes and
charges 0. -/
theorem c5_free_over_zero_witness :
    (summaryShippingOptions [⟨"f", "IN", "standard", 700, some 1000, true⟩] 1200)[0]? =
      some ⟨"f", "standard", 0⟩
    ∧ placeOrderShipping [⟨"f", "IN", "standard", 700, some 1000, true⟩]
        ⟨"f", "IN", "standard", 700, some 1000, true⟩ "IN" 1200 = 0 :=
  c5_free_over_zero [⟨"f", "IN", "standard", 700, some 1000, true⟩] 1200 0
    ⟨"f", "IN", "standard", 700, some 1000, true⟩ 1000
    [⟨"f", "IN", "standard", 700, some 1000, true⟩] "IN" (by decide) rfl (by decide)

/-- C1: `summary()` and `placeOrder()` evaluated back-to-back on the same
unchanged data do NOT always agree on shipping cost.  With standard and
express both at base 150 and subtotal 1500, the summary shows 440 for
express (cap applied before the tie-break surcharge) while place-order
charges 150 for the same method (cap applied after the surcharge): the two
call sites compute shipping independently, not from a single source of
truth. -/
theorem c1_shipping_drift :
    summaryCompute
        [⟨"p1", 3, "Widget", 500, 10, 0⟩]
        [⟨"a1", some "IN", true⟩]
        [⟨"s", "IN", "standard", 150, none, true⟩,
         ⟨"e", "IN", "express", 150, none, true⟩] =
      .ok ⟨1500, "a1", [⟨"s", "standard", 150⟩, ⟨"e", "express", 440⟩]⟩
    ∧ (placeOrderCompute
        [⟨"p1", 3, "Widget", 500, 10, 0⟩]
        ⟨[("u1", ⟨"a1", some "IN", true⟩)],
         [⟨"s", "IN", "standard", 150, none, true⟩,
          ⟨"e", "IN", "express", 150, none, true⟩]⟩
        "u1" ⟨"e", "a1", none⟩ "o1").map (fun r => r.1.shipping_cents) =
      .ok 150
    ∧ (440 : Nat) ≠ 150 := by
  refine ⟨by rfl, by rfl, by decide⟩

/-- C2: the commit phase is not atomic.  With a one-line cart, if the
first `order_items` insert (commit write index 1) throws after the
`orders` insert succeeded, the handler answers 500 but the store is left
with the order row present, zero order-item rows, the stock untouched and
the cart uncleared — a partially-applied state. -/
theorem c2_partial_commit :
    placeOrderExec
        ⟨[⟨"p1", 1, "Widget", 500, 5, 0⟩], [("p1", 5)], [], []⟩
        ⟨[("u1", ⟨"a1", some "IN", true⟩)],
         [⟨"s", "IN", "standard", 150, none, true⟩]⟩
        "u1" ⟨"s", "a1", none⟩ "o1" (some 1) =
      (.error .storage,
        ⟨[⟨"p1", 1, "Widget", 500, 5, 0⟩], [("p1", 5)],
         [⟨"o1", "u1", "placed", 500, 50, 0, 550, "USD", "a1", "a1", "s"⟩], []⟩) := by
  rfl

theorem hasLine_deleteLine (cart : Cart) (pid : String) :
    hasLine (deleteLine cart pid) pid = false := by
  induction cart with
  | nil => rfl
  | cons r rest ih =>
    simp only [deleteLine, List.filter_cons]
    by_cases h : r.1 = pid
    · simp only [h, bne_self_eq_false]
      exact ih
    · have hb : (r.1 != pid) = true := by simp [bne, h]
      rw [hb]
      simp only [if_true]
      simp only [hasLine, List.find?]
      have : (r.1 == pid) = false := by simp [h]
      rw [this]
      exact ih

theorem cartInv_deleteLine (cart : Cart) (pid : String) (h : CartInv cart) :
    CartInv (deleteLine cart pid) := by
  intro r hr
  exact h r (List.mem_of_mem_filter hr)

theorem cartInv_upsertLine (cart : Cart) (pid : String) (q : Int)
    (h : CartInv cart) (hq : 1 ≤ q) : CartInv (upsertLine cart pid q) := by
  intro r hr
  unfold upsertLine at hr
  split at hr
  · rw [List.mem_map] at hr
    obtain ⟨x, hx, hfx⟩ := hr
    by_cases hxp : x.1 == pid
    · rw [if_pos hxp] at hfx
      rw [← hfx]
      exact hq
    · rw [if_neg hxp] at hfx
      rw [← hfx]
      exact h x hx
  · rw [List.mem_append] at hr
    cases hr with
    | inl hin => exact h r hin
    | inr hin =>
      rw [List.mem_singleton] at hin
      rw [hin]
      exact hq

theorem cartInv_commitLine (cart : Cart) (pid : String) (newQty : Int)
    (h : CartInv cart) : CartInv (commitLine cart pid newQty).2 := by
  unfold commitLine
  split
  · exact cartInv_deleteLine _ _ h
  · next hgt => exact cartInv_upsertLine _ _ _ h (by omega)

theorem commitLine_ok (cart : Cart) (pid : String) (newQty : Int) (q : Int)
    (cart' : Cart) (h : commitLine cart pid newQty = (.ok q, cart')) :
    0 ≤ q ∧ (q = 0 → hasLine cart' pid = false) := by
  unfold commitLine at h
  split at h
  · simp only [Prod.mk.injEq, Except.ok.injEq] at h
    obtain ⟨rfl, rfl⟩ := h
    exact ⟨le_refl 0, fun _ => hasLine_deleteLine cart pid⟩
  · next hgt =>
    simp only [Prod.mk.injEq, Except.ok.injEq] at h
    obtain ⟨rfl, rfl⟩ := h
    exact ⟨by omega, fun h0 => absurd h0 (by omega)⟩

theorem cartInv_updateCart (env : CartEnv) (uid : String) (cart : Cart)
    (req : CartReq) (h : CartInv cart) :
    CartInv (updateCart env uid cart req).2 := by
  simp only [updateCart]
  repeat' split
  all_goals first
    | exact h
    | exact cartInv_commitLine _ _ _ h

theorem updateCart_ok (env : CartEnv) (uid : String) (cart : Cart)
    (req : CartReq) (q : Int) (cart' : Cart)
    (h : updateCart env uid cart req = (.ok q, cart')) :
    0 ≤ q ∧ (q = 0 → hasLine cart' req.product_id = false) := by
  simp only [updateCart] at h
  repeat' split at h
  all_goals first
    | (exact commitLine_ok _ _ _ _ _ h)
    | simp at h

theorem cartInv_runCart (uid : String) (ops : List (CartEnv × CartReq)) :
    ∀ cart : Cart, CartInv cart → CartInv (runCart uid cart ops) := by
  induction ops with
  | nil => intro cart h; exact h
  | cons op rest ih =>
    intro cart h
    simp only [runCart, List.foldl_cons]
    exact ih _ (cartInv_updateCart op.1 uid cart op.2 h)

/-- C6: starting from a cart whose stored lines all have quantity ≥ 1,
any sequence of cart operations preserves that invariant; any accepted
operation reports a quantity ≥ 0; and a reported quantity of 0 means the
line is no longer stored (the delete path, idempotent on an absent line). -/
theorem c6_cart_invariant (uid : String) (cart : Cart)
    (ops : List (CartEnv × CartReq)) (env : CartEnv) (req : CartReq)
    (q : Int) (cart' : Cart) (hinv : CartInv cart)
    (hok : updateCart env uid cart req = (.ok q, cart')) :
    CartInv (runCart uid cart ops) ∧ CartInv cart' ∧ 0 ≤ q
    ∧ (q = 0 → hasLine cart' req.product_id = false) := by
  have h2 : (updateCart env uid cart req).2 = cart' := by rw [hok]
  refine ⟨cartInv_runCart uid ops cart hinv, ?_, ?_, ?_⟩
  · rw [← h2]
    exact cartInv_updateCart env uid cart req hinv
  · exact (updateCart_ok env uid cart req q cart' hok).1
  · exact (updateCart_ok env uid cart req q cart' hok).2

/-- Witness for C6: a concrete add then a full remove on a two-line cart. -/
theorem c6_cart_invariant_witness :
    CartInv (runCart "u1" [("p0", 2)]
      [(⟨some ⟨"p1", some "s9", "active"⟩, 5, 0⟩, ⟨"p1", 3, .add⟩),
       (⟨some ⟨"p1", some "s9", "active"⟩, 5, 0⟩, ⟨"p1", 3, .remove⟩)])
    ∧ CartInv [("p0", 2), ("p1", 3)] ∧ (0 : Int) ≤ 3
    ∧ ((3 : Int) = 0 → hasLine [("p0", 2), ("p1", 3)] "p1" = false) :=
  c6_cart_invariant "u1" [("p0", 2)]
    [(⟨some ⟨"p1", some "s9", "active"⟩, 5, 0⟩, ⟨"p1", 3, .add⟩),
     (⟨some ⟨"p1", some "s9", "active"⟩, 5, 0⟩, ⟨"p1", 3, .remove⟩)]
    ⟨some ⟨"p1", some "s9", "active"⟩, 5, 0⟩ ⟨"p1", 3, .add⟩ 3
    [("p0", 2), ("p1", 3)] (by unfold CartInv; decide) (by rfl)

/-- C7: a cart operation that increases the stored quantity past
`available = stock - reserved` is rejected with the cart unchanged:
`outOfStock` when availability is ≤ 0 (the distinct zero-availability
error), `exceedsAvailable` carrying the available count when availability
is positive but insufficient. -/
theorem c7_availability_rejection (env : CartEnv) (uid : String) (cart : Cart)
    (req : CartReq) (p : ProductRow)
    (hq1 : 1 ≤ req.qty) (hq2 : req.qty ≤ 999)
    (hprod : env.product = some p) (hact : p.status = "active")
    (hown : sellerBlocked p uid = false)
    (hop : req.op = .set ∨ req.op = .add)
    (hinc : currentQtyOf cart req.product_id < requestedQty cart req)
    (hexceed : env.stock - env.reserved < requestedQty cart req) :
    (env.stock - env.reserved ≤ 0 →
      updateCart env uid cart req = (.error .outOfStock, cart))
    ∧ (0 < env.stock - env.reserved →
      updateCart env uid cart req =
        (.error (.exceedsAvailable (env.stock - env.reserved)), cart)) := by
  have hnew : newQtyOf cart req = .ok (requestedQty cart req) := by
    cases hop with
    | inl h => simp [newQtyOf, h]
    | inr h => simp [newQtyOf, h]
  constructor
  · intro hle
    simp only [updateCart, hprod, hnew]
    rw [if_neg (show ¬(req.qty < 1 ∨ 999 < req.qty) by omega)]
    rw [if_neg (show ¬(p.status ≠ "active") by simp [hact])]
    rw [if_neg (show ¬(sellerBlocked p uid = true) by simp [hown])]
    rw [if_pos (show (req.op = CartOp.set ∨ req.op = CartOp.add) ∧
        currentQtyOf cart req.product_id < requestedQty cart req from ⟨hop, hinc⟩)]
    rw [if_pos hle]
  · intro hpos
    simp only [updateCart, hprod, hnew]
    rw [if_neg (show ¬(req.qty < 1 ∨ 999 < req.qty) by omega)]
    rw [if_neg (show ¬(p.status ≠ "active") by simp [hact])]
    rw [if_neg (show ¬(sellerBlocked p uid = true) by simp [hown])]
    rw [if_pos (show (req.op = CartOp.set ∨ req.op = CartOp.add) ∧
        currentQtyOf cart req.product_id < requestedQty cart req from ⟨hop, hinc⟩)]
    rw [if_neg (show ¬(env.stock - env.reserved ≤ 0) by omega)]
    rw [if_pos hexceed]

/-- Witness for C7: two units in stock with two reserved (availability 0)
rejects an add as out-of-stock; three in stock with two reserved
(availability 1) rejects an add to quantity 2 as exceeding availability. -/
theorem c7_availability_rejection_witness :
    ((⟨some ⟨"p1", some "s9", "active"⟩, (2 : Int), 2⟩ : CartEnv).stock -
        (⟨some ⟨"p1", some "s9", "active"⟩, (2 : Int), 2⟩ : CartEnv).reserved ≤ 0 →
      updateCart ⟨some ⟨"p1", some "s9", "active"⟩, 2, 2⟩ "u1" [] ⟨"p1", 1, .add⟩ =
        (.error .outOfStock, []))
    ∧ (0 < (⟨some ⟨"p1", some "s9", "active"⟩, (2 : Int), 2⟩ : CartEnv).stock -
        (⟨some ⟨"p1", some "s9", "active"⟩, (2 : Int), 2⟩ : CartEnv).reserved →
      updateCart ⟨some ⟨"p1", some "s9", "active"⟩, 2, 2⟩ "u1" [] ⟨"p1", 1, .add⟩ =
        (.error (.exceedsAvailable ((⟨some ⟨"p1", some "s9", "active"⟩, (2 : Int), 2⟩ : CartEnv).stock -
          (⟨some ⟨"p1", some "s9", "active"⟩, (2 : Int), 2⟩ : CartEnv).reserved)), [])) :=
  c7_availability_rejection ⟨some ⟨"p1", some "s9", "active"⟩, 2, 2⟩ "u1" []
    ⟨"p1", 1, .add⟩ ⟨"p1", some "s9", "active"⟩ (by decide) (by decide) rfl rfl
    (by decide) (Or.inr rfl) (by decide) (by decide)

/-- C8: every order row `placeOrder()` builds satisfies `tax_cents = 0`,
`total_cents = subtotal_cents + shipping_cents + tax_cents`, and its
stored subtotal is the sum of `price_cents * qty` over the cart lines
read at step 1. -/
theorem c8_order_totals (items : List CartRow) (tbl : CheckoutTables)
    (uid : String) (inp : PlaceInput) (oid : String) (o : OrderRow)
    (its : List OrderItemRow)
    (h : placeOrderCompute items tbl uid inp oid = .ok (o, its)) :
    o.tax_cents = 0
    ∧ o.total_cents = o.subtotal_cents + o.shipping_cents + o.tax_cents
    ∧ o.subtotal_cents = (items.map (fun it => it.price_cents * it.qty)).sum := by
  simp only [placeOrderCompute] at h
  repeat' split at h
  all_goals try simp at h
  all_goals obtain ⟨ho, hits⟩ := h
  all_goals subst ho
  all_goals exact ⟨rfl, rfl, subtotalOf_eq_sum items⟩

/-- Witness for C8: a successful one-line order (price 500 × qty 3,
standard method base 5000, cap 150) has totals 1500 + 150 + 0 = 1650. -/
theorem c8_order_totals_witness :
    (⟨"o1", "u1", "placed", 1500, 150, 0, 1650, "USD", "a1", "a1", "s"⟩ : OrderRow).tax_cents = 0
    ∧ (⟨"o1", "u1", "placed", 1500, 150, 0, 1650, "USD", "a1", "a1", "s"⟩ : OrderRow).total_cents =
        (⟨"o1", "u1", "placed", 1500, 150, 0, 1650, "USD", "a1", "a1", "s"⟩ : OrderRow).subtotal_cents +
        (⟨"o1", "u1", "placed", 1500, 150, 0, 1650, "USD", "a1", "a1", "s"⟩ : OrderRow).shipping_cents +
        (⟨"o1", "u1", "placed", 1500, 150, 0, 1650, "USD", "a1", "a1", "s"⟩ : OrderRow).tax_cents
    ∧ (⟨"o1", "u1", "placed", 1500, 150, 0, 1650, "USD", "a1", "a1", "s"⟩ : OrderRow).subtotal_cents =
        (([⟨"p1", 3, "Widget", 500, 10, 0⟩] : List CartRow).map
          (fun it => it.price_cents * it.qty)).sum :=
  c8_order_totals [⟨"p1", 3, "Widget", 500, 10, 0⟩]
    ⟨[("u1", ⟨"a1", some "IN", true⟩)], [⟨"s", "IN", "standard", 5000, none, true⟩]⟩
    "u1" ⟨"s", "a1", none⟩ "o1"
    ⟨"o1", "u1", "placed", 1500, 150, 0, 1650, "USD", "a1", "a1", "s"⟩
    [⟨"o1", "p1", "Widget", 500, 3⟩] (by rfl)

/-- C9: with an empty cart, `placeOrder()` answers the empty-cart conflict
before issuing any write — the store is returned unchanged whatever the
fault pattern — and `summary()` answers the same conflict (it never writes
at all). -/
theorem c9_empty_cart_no_writes (st : DBState) (tbl : CheckoutTables)
    (uid : String) (inp : PlaceInput) (oid : String) (failAt : Option Nat)
    (addrs : List Address) (methods : List ShippingMethod)
    (hcart : st.cart = []) (hvalid : placeInputValid inp = true) :
    placeOrderExec st tbl uid inp oid failAt = (.error .emptyCart, st)
    ∧ summaryCompute st.cart addrs methods = .error .emptyCart := by
  have hcompute : placeOrderCompute st.cart tbl uid inp oid = .error .emptyCart := by
    simp [placeOrderCompute, hcart, hvalid]
  constructor
  · simp only [placeOrderExec, hcompute]
  · simp [summaryCompute, hcart]

/-- Witness for C9: an empty store with a schema-valid request. -/
theorem c9_empty_cart_no_writes_witness :
    placeOrderExec ⟨[], [], [], []⟩ ⟨[], []⟩ "u1" ⟨"s", "a1", none⟩ "o1" none =
      (.error .emptyCart, ⟨[], [], [], []⟩)
    ∧ summaryCompute ([] : List CartRow) [] [] = .error .emptyCart :=
  c9_empty_cart_no_writes ⟨[], [], [], []⟩ ⟨[], []⟩ "u1" ⟨"s", "a1", none⟩ "o1"
    none [] [] rfl (by decide)

/-- C10: `placeOrder()` never fails because of `billing_address_id`: with
any non-empty string supplied, the outcome (error or success) is the same
as with the field omitted, and the supplied string is stored verbatim on
the order with no existence or ownership check; when omitted, the stored
`billing_address_id` equals the order's resolved shipping address id. -/
theorem c10_billing_passthrough (items : List CartRow) (tbl : CheckoutTables)
    (uid mid aid b oid : String) (hb : b ≠ "") :
    (∀ e, placeOrderCompute items tbl uid ⟨mid, aid, some b⟩ oid = .error e ↔
          placeOrderCompute items tbl uid ⟨mid, aid, none⟩ oid = .error e)
    ∧ (∀ o its,
        placeOrderCompute items tbl uid ⟨mid, aid, some b⟩ oid = .ok (o, its) →
        o.billing_address_id = b)
    ∧ (∀ o its,
        placeOrderCompute items tbl uid ⟨mid, aid, none⟩ oid = .ok (o, its) →
        o.billing_address_id = o.shipping_address_id) := by
  have hval : placeInputValid ⟨mid, aid, some b⟩ = placeInputValid ⟨mid, aid, none⟩ := by
    simp [placeInputValid, hb]
  have key : placeOrderCompute items tbl uid ⟨mid, aid, some b⟩ oid =
      (placeOrderCompute items tbl uid ⟨mid, aid, none⟩ oid).map
        (fun r => ({ r.1 with billing_address_id := b }, r.2)) := by
    by_cases h0 : placeInputValid ⟨mid, aid, none⟩ = true
    · have h0b : placeInputValid ⟨mid, aid, some b⟩ = true := by rw [hval]; exact h0
      by_cases hi : items = []
      · simp [placeOrderCompute, h0, h0b, hi, Except.map]
      · cases hfs : firstShort items with
        | some it => simp [placeOrderCompute, h0, h0b, hi, hfs, Except.map]
        | none =>
          cases hla : lookupAddress tbl uid aid with
          | none => simp [placeOrderCompute, h0, h0b, hi, hfs, hla, Except.map]
          | some addr =>
            cases hlm : lookupMethod tbl mid with
            | none => simp [placeOrderCompute, h0, h0b, hi, hfs, hla, hlm, Except.map]
            | some m =>
              by_cases hz : m.zone = zoneOf addr.country
              · simp [placeOrderCompute, h0, h0b, hi, hfs, hla, hlm, hz, Except.map]
              · simp [placeOrderCompute, h0, h0b, hi, hfs, hla, hlm, hz, Except.map]
    · have h0b : ¬ placeInputValid ⟨mid, aid, some b⟩ = true := by rw [hval]; exact h0
      simp [placeOrderCompute, h0, h0b, Except.map]
  refine ⟨?_, ?_, ?_⟩
  · intro e
    rw [key]
    cases hc : placeOrderCompute items tbl uid ⟨mid, aid, none⟩ oid with
    | error e2 => simp [Except.map]
    | ok r => simp [Except.map]
  · intro o its h
    rw [key] at h
    cases hc : placeOrderCompute items tbl uid ⟨mid, aid, none⟩ oid with
    | error e2 => rw [hc] at h; simp [Except.map] at h
    | ok r =>
      rw [hc] at h
      simp only [Except.map, Except.ok.injEq, Prod.mk.injEq] at h
      obtain ⟨ho, hits⟩ := h
      rw [← ho]
  · intro o its h
    simp only [placeOrderCompute] at h
    repeat' split at h
    all_goals try simp at h
    all_goals obtain ⟨ho, hits⟩ := h
    all_goals subst ho
    all_goals rfl

/-- Witness for C10: a billing id "whatever" that names no address row is
accepted and stored verbatim; omitting it stores the shipping address id. -/
theorem c10_billing_passthrough_witness :
    (∀ e, placeOrderCompute [⟨"p1", 3, "Widget", 500, 10, 0⟩]
        ⟨[("u1", ⟨"a1", some "IN", true⟩)], [⟨"s", "IN", "standard", 5000, none, true⟩]⟩
        "u1" ⟨"s", "a1", some "whatever"⟩ "o1" = .error e ↔
      placeOrderCompute [⟨"p1", 3, "Widget", 500, 10, 0⟩]
        ⟨[("u1", ⟨"a1", some "IN", true⟩)], [⟨"s", "IN", "standard", 5000, none, true⟩]⟩
        "u1" ⟨"s", "a1", none⟩ "o1" = .error e)
    ∧ (∀ o its,
        placeOrderCompute [⟨"p1", 3, "Widget", 500, 10, 0⟩]
          ⟨[("u1", ⟨"a1", some "IN", true⟩)], [⟨"s", "IN", "standard", 5000, none, true⟩]⟩
          "u1" ⟨"s", "a1", some "whatever"⟩ "o1" = .ok (o, its) →
        o.billing_address_id = "whatever")
    ∧ (∀ o its,
        placeOrderCompute [⟨"p1", 3, "Widget", 500, 10, 0⟩]
          ⟨[("u1", ⟨"a1", some "IN", true⟩)], [⟨"s", "IN", "standard", 5000, none, true⟩]⟩
          "u1" ⟨"s", "a1", none⟩ "o1" = .ok (o, its) →
        o.billing_address_id = o.shipping_address_id) :=
  c10_billing_passthrough [⟨"p1", 3, "Widget", 500, 10, 0⟩]
    ⟨[("u1", ⟨"a1", some "IN", true⟩)], [⟨"s", "IN", "standard", 5000, none, true⟩]⟩
    "u1" "s" "a1" "whatever" "o1" (by decide)
